import Mathlib

/-!
Shallow embedding of the recipe-sharing catalog backend
(Express + Mongoose routes in src/routes/recipes.js and the Recipe
schema in src/unnamed/part_000, user routes in src/unnamed/part_001).

Users and recipes are identified by natural-number ids (standing in for
Mongo ObjectIds); timestamps are naturals.  Query-string parameters are
`Option String` (absent vs. supplied); JavaScript truthiness and
`parseInt` are modelled explicitly, with `none` standing for `NaN` in
the result of `parseInt`.
-/

namespace RecipeCatalog

/-- One entry of `recipeSchema.ratings`: `{user, rating, createdAt}`. -/
structure RatingEntry where
  user : Nat
  rating : Nat
  createdAt : Nat
deriving DecidableEq, Repr

/-- One entry of `recipeSchema.comments`: `{user, text, createdAt}`. -/
structure CommentEntry where
  user : Nat
  text : String
  createdAt : Nat
deriving DecidableEq, Repr

/-- One entry of `recipeSchema.ingredients`: `{name, amount}`. -/
structure Ingredient where
  name : String
  amount : String
deriving DecidableEq, Repr

/-- The Recipe document (fields of `recipeSchema` relevant to the
catalog's behaviour; `calories` is the one optional numeric field). -/
structure Recipe where
  id : Nat
  title : String
  description : String
  cuisine : String
  diet : String
  difficulty : String
  prepTime : Nat
  cookTime : Nat
  servings : Nat
  calories : Option Nat
  ingredients : List Ingredient
  author : Nat
  ratings : List RatingEntry
  comments : List CommentEntry
  createdAt : Nat
deriving DecidableEq, Repr

/-- The User document fields this core touches: id and `favoriteRecipes`. -/
structure User where
  id : Nat
  favoriteRecipes : List Nat
deriving DecidableEq, Repr

/-! ### RatingAggregate: the `averageRating` virtual

`recipeSchema.virtual('averageRating')`:
returns `0` when `ratings.length === 0`, otherwise
`(sum / this.ratings.length).toFixed(1)` where `sum` is
`ratings.reduce((acc, r) => acc + r.rating, 0)`.

The division is IEEE-754 binary64 arithmetic: `sum` and `length` are
exactly representable, so `sum / length` is the true quotient rounded
to the nearest double (ties to even), modelled by `roundToDouble` over
exact rationals (53-bit significand; the means that occur lie deep
inside the normal range, so subnormals and overflow play no role).
`toFixed(1)` then picks the integer n minimising the distance of n/10
to that double's exact value, the larger n on ties (ECMAScript
Number.prototype.toFixed), modelled by `toFixed1` for the non-negative
values that occur here.  The composite differs from half-up rounding of
the exact mean: 87/20 = 4.35 has no exact double, its nearest double
lies just below, and toFixed(1) returns "4.3" where exact half-up gives
4.4. -/

/-- `ratings.reduce((acc, rating) => acc + rating.rating, 0)`. -/
def sumRatings (l : List RatingEntry) : Nat :=
  l.foldl (fun acc e => acc + e.rating) 0

/-- Round to the nearest integer, ties to even. -/
def roundTiesEven (x : ℚ) : ℤ :=
  if x - ⌊x⌋ < 1 / 2 then ⌊x⌋
  else if 1 / 2 < x - ⌊x⌋ then ⌊x⌋ + 1
  else if 2 ∣ ⌊x⌋ then ⌊x⌋ else ⌊x⌋ + 1

/-- The exact value of the IEEE-754 binary64 double nearest to a
non-negative rational in the normal range: scale into the 53-bit
significand window by the binary exponent, round ties-to-even, scale
back.  Non-positive input (only the exact 0 occurs) maps to 0. -/
def roundToDouble (q : ℚ) : ℚ :=
  if q ≤ 0 then 0
  else ((roundTiesEven (q * 2 ^ ((52 : ℤ) - Int.log 2 q)) : ℤ) : ℚ) *
    2 ^ (Int.log 2 q - 52)

/-- `x.toFixed(1)` for a non-negative double value `x`: round `10 * x`
half-up to an integer, then divide by 10. -/
def toFixed1 (q : ℚ) : ℚ :=
  ((⌊10 * q + 1 / 2⌋ : ℤ) : ℚ) / 10

/-- The `averageRating` virtual of a recipe: 0 when there are no
ratings, else `toFixed(1)` of the double quotient `sum / length`. -/
def averageRating (r : Recipe) : ℚ :=
  if r.ratings.length = 0 then 0
  else toFixed1 (roundToDouble ((sumRatings r.ratings : ℚ) / (r.ratings.length : ℚ)))

/-- The `totalTime` virtual: `prepTime + cookTime`. -/
def totalTime (r : Recipe) : Nat :=
  r.prepTime + r.cookTime

/-! ### The rate upsert on a ratings list

`router.post('/:id/rate')`:
`recipe.ratings.find(r => r.user.toString() === userId)`; if found the
entry's `rating` field is overwritten in place, otherwise
`{user, rating}` is pushed (its `createdAt` filled by the schema
default, modelled by the `now` argument). -/

/-- Overwrite the `rating` field of the first entry whose `user` is `u`
(the mutation of the object returned by `Array.prototype.find`). -/
def setFirstRating (l : List RatingEntry) (u v : Nat) : List RatingEntry :=
  match l with
  | [] => []
  | e :: t => if e.user == u then { e with rating := v } :: t
              else e :: setFirstRating t u v

/-- The body of the rate handler on the ratings list. -/
def rateList (l : List RatingEntry) (u v now : Nat) : List RatingEntry :=
  match l.find? (fun e => e.user == u) with
  | some _ => setFirstRating l u v
  | none => l ++ [⟨u, v, now⟩]

/-- The entries of a ratings list contributed by user `u`. -/
def userEntries (l : List RatingEntry) (u : Nat) : List RatingEntry :=
  l.filter (fun e => e.user == u)

/-! ### JavaScript boundary helpers

Query-string values are strings when supplied and `undefined` when
absent.  `if (req.query.x)` is JavaScript truthiness: `undefined` and
the empty string are falsy, every other string (including "0") is
truthy. -/

/-- JavaScript truthiness of an optional query-string value. -/
def jsTruthy : Option String → Bool
  | none => false
  | some s => !(s == "")

/-- The numeric value of a leading run of decimal digits, `none` when
the run is empty (`parseInt` yields `NaN`). -/
def digitsVal (cs : List Char) : Option Nat :=
  let ds := cs.takeWhile (fun c => c.isDigit)
  if ds.isEmpty then none
  else some (ds.foldl (fun acc c => acc * 10 + (c.toNat - 48)) 0)

/-- `parseInt(s)` (radix 10): skip leading whitespace, optional sign,
then a leading digit run; `none` models `NaN`. -/
def jsParseInt (s : String) : Option Int :=
  let cs := s.toList.dropWhile (fun c =>
    c == ' ' || c == '\t' || c == '\n' || c == '\r')
  match cs with
  | '-' :: rest => (digitsVal rest).map (fun n => -(n : Int))
  | '+' :: rest => (digitsVal rest).map (fun n => (n : Int))
  | rest => (digitsVal rest).map (fun n => (n : Int))

/-! ### QueryFilterBuilder (the filter object built in `router.get('/')`)

Each request parameter is added to the Mongo filter object only when
truthy.  The numeric bounds store `Option Int` inside: `some none`
stands for a present `$lte: NaN` bound (from `parseInt` on a
non-numeric string). -/

/-- The query-string parameters consumed by the listing route. -/
structure Query where
  page : Option String := none
  limit : Option String := none
  cuisine : Option String := none
  diet : Option String := none
  difficulty : Option String := none
  search : Option String := none
  maxPrepTime : Option String := none
  maxCookTime : Option String := none
  maxCalories : Option String := none
  ingredients : Option String := none
deriving DecidableEq, Repr

/-- The Mongo filter object assembled by the route: a field is `none`
when the corresponding parameter contributed no constraint. -/
structure QueryFilter where
  cuisine : Option String
  diet : Option String
  difficulty : Option String
  search : Option String
  prepTimeLte : Option (Option Int)
  cookTimeLte : Option (Option Int)
  caloriesLte : Option (Option Int)
  ingredientNamesIn : Option (List String)
deriving DecidableEq, Repr

/-- The filter-building block of `router.get('/')`. -/
def buildFilter (q : Query) : QueryFilter where
  cuisine := if jsTruthy q.cuisine then q.cuisine else none
  diet := if jsTruthy q.diet then q.diet else none
  difficulty := if jsTruthy q.difficulty then q.difficulty else none
  search := if jsTruthy q.search then q.search else none
  prepTimeLte :=
    if jsTruthy q.maxPrepTime then some (jsParseInt (q.maxPrepTime.getD "")) else none
  cookTimeLte :=
    if jsTruthy q.maxCookTime then some (jsParseInt (q.maxCookTime.getD "")) else none
  caloriesLte :=
    if jsTruthy q.maxCalories then some (jsParseInt (q.maxCalories.getD "")) else none
  ingredientNamesIn :=
    if jsTruthy q.ingredients then some ((q.ingredients.getD "").splitOn ",") else none

/-! ### Matching a recipe against the filter

A Mongo document matches a filter object exactly when it satisfies
every field of the filter (conjunction).  `$lte: NaN` matches no
numeric value (NaN is below every number in the BSON order bracket);
`$lte` on the optional `calories` field matches only documents that
carry a numeric value satisfying the bound.  Free-text `$text` search
semantics live in the store's text index and are kept abstract as a
`textPred` parameter. -/

/-- `$lte` with a possibly-NaN bound against a numeric field. -/
def lteCond (bound : Option (Option Int)) (x : Nat) : Bool :=
  match bound with
  | none => true
  | some none => false
  | some (some n) => decide ((x : Int) ≤ n)

/-- `$lte` with a possibly-NaN bound against the optional `calories`
field. -/
def lteCondOpt (bound : Option (Option Int)) (x : Option Nat) : Bool :=
  match bound with
  | none => true
  | some none => false
  | some (some n) =>
    match x with
    | none => false
    | some c => decide ((c : Int) ≤ n)

/-- Exact match against an optional string constraint. -/
def strCond (c : Option String) (x : String) : Bool :=
  match c with
  | none => true
  | some v => x == v

/-- The `$text: {$search: ...}` condition, via the abstract text-index
predicate. -/
def textCond (textPred : String → Recipe → Bool) (c : Option String)
    (r : Recipe) : Bool :=
  match c with
  | none => true
  | some s => textPred s r

/-- The `'ingredients.name': {$in: names}` condition: some ingredient's
name lies in the given list. -/
def ingCond (c : Option (List String)) (ings : List Ingredient) : Bool :=
  match c with
  | none => true
  | some names => ings.any (fun i => names.contains i.name)

/-- Whether a recipe matches the assembled filter object, given the
text-index predicate `textPred`: the conjunction of every field
condition of the filter. -/
def matchesFilter (textPred : String → Recipe → Bool)
    (f : QueryFilter) (r : Recipe) : Bool :=
  strCond f.cuisine r.cuisine &&
  strCond f.diet r.diet &&
  strCond f.difficulty r.difficulty &&
  textCond textPred f.search r &&
  lteCond f.prepTimeLte r.prepTime &&
  lteCond f.cookTimeLte r.cookTime &&
  lteCondOpt f.caloriesLte r.calories &&
  ingCond f.ingredientNamesIn r.ingredients

/-! ### PaginatedSearch (`router.get('/')` after the filter is built)

`Recipe.find(filter).sort({createdAt: -1}).skip((page-1)*limit).limit(limit)`
plus `countDocuments(filter)` and the pagination metadata. -/

/-- Insert into a sorted list, keeping elements that may precede `a`
in front. -/
def insertBy {α : Type} (le : α → α → Bool) (a : α) : List α → List α
  | [] => [a]
  | b :: t => if le a b then a :: b :: t else b :: insertBy le a t

/-- Insertion sort by the given may-precede relation (the store's sort
is modelled by any sort producing the requested order; ties carry no
guarantee). -/
def sortBy {α : Type} (le : α → α → Bool) : List α → List α
  | [] => []
  | a :: t => insertBy le a (sortBy le t)

/-- `a` may precede `b` under `sort({ createdAt: -1 })`. -/
def createdDesc (a b : Recipe) : Bool :=
  decide (b.createdAt ≤ a.createdAt)

/-- `sort({ createdAt: -1 })`: creation time, most recent first. -/
def sortByCreatedDesc (l : List Recipe) : List Recipe :=
  sortBy createdDesc l

/-- `parseInt(v) || d`: `NaN` and `0` fall back to the default. -/
def parseIntOr (v : Option String) (d : Int) : Int :=
  match v with
  | none => d
  | some s =>
    match jsParseInt s with
    | none => d
    | some n => if n == 0 then d else n

/-- The listing response body. -/
structure ListResult where
  recipes : List Recipe
  currentPage : Nat
  totalPages : Nat
  totalRecipes : Nat
  hasNext : Bool
  hasPrev : Bool
deriving DecidableEq, Repr

/-- The listing route with the page number and page size already
parsed (`page = parseInt(req.query.page) || 1`, and likewise the
limit with default 12): filter, sort by creation time descending,
drop `(page-1)*limit`, take `limit`, and attach the metadata
`totalPages = Math.ceil(total/limit)`, `hasNext = page < totalPages`,
`hasPrev = page > 1`. -/
def listRecipes (textPred : String → Recipe → Bool) (f : QueryFilter)
    (store : List Recipe) (page limit : Nat) : ListResult :=
  let skip := (page - 1) * limit
  let matching := store.filter (matchesFilter textPred f)
  let total := matching.length
  let totalPages := (total + limit - 1) / limit
  { recipes := ((sortByCreatedDesc matching).drop skip).take limit
    currentPage := page
    totalPages := totalPages
    totalRecipes := total
    hasNext := decide (page < totalPages)
    hasPrev := decide (1 < page) }

/-! ### The popular listing (`router.get('/popular')`)

`Recipe.find().sort({ 'ratings.rating': -1, createdAt: -1 }).limit(12)`.
A Mongo descending sort on the array path `ratings.rating` orders
documents by the LARGEST element of the array (an empty array sorting
below every numeric key); ties are broken by `createdAt` descending. -/

/-- The sort key taken from the `ratings.rating` array path by a
descending Mongo sort: the maximum rating value, 0 for an empty list
(rating values are at least 1 by the schema, so 0 sits below every
real key, as Mongo places empty arrays). -/
def maxRatingKey (r : Recipe) : Nat :=
  ((r.ratings.map (fun e => e.rating)).max?).getD 0

/-- `a` may precede `b` under `sort({'ratings.rating': -1, createdAt: -1})`. -/
def popBefore (a b : Recipe) : Bool :=
  decide (maxRatingKey b < maxRatingKey a) ||
  (maxRatingKey a == maxRatingKey b && decide (b.createdAt ≤ a.createdAt))

/-- The popular route: the whole collection in the popular order. -/
def popSort (store : List Recipe) : List Recipe :=
  sortBy popBefore store

/-- The popular route's response: top 12 of the popular order. -/
def popular (store : List Recipe) : List Recipe :=
  (popSort store).take 12

/-! ### The catalog state machine

One state for the whole catalog: the recipe collection, the user
collection, and a counter assigning fresh recipe ids.  Each mutating
route becomes one operation; an operation returns the next state plus
the error it reported, the state unchanged whenever it errors. -/

/-- The catalog state. -/
structure CState where
  recipes : List Recipe
  users : List User
  nextId : Nat
deriving Repr

/-- The error kinds the routes surface. -/
inductive CatalogErr where
  | RecipeNotFound
  | AlreadyFavorited
  | ServerError
deriving DecidableEq, Repr

/-- The payload of a create request.  The route spreads the whole
request body into the document (`{...req.body, author: req.user._id}`)
and the express-validator chain only checks the named fields without
stripping extras, so a body may also carry the engagement-list schema
paths `ratings` and `comments`; they reach the Recipe constructor
as-is.  `author` is overwritten by the authenticated id after the
spread. -/
structure NewRecipe where
  title : String
  description : String
  cuisine : String
  diet : String
  difficulty : String
  prepTime : Nat
  cookTime : Nat
  servings : Nat
  calories : Option Nat
  ingredients : List Ingredient
  ratings : List RatingEntry
  comments : List CommentEntry
  author : Nat
  now : Nat
deriving DecidableEq, Repr

/-- The catalog's mutating operations. -/
inductive Op where
  | create (d : NewRecipe)
  | rate (rid u v now : Nat)
  | comment (rid u : Nat) (text : String) (now : Nat)
  | favAdd (uid rid : Nat)
  | favRemove (uid rid : Nat)
deriving Repr

/-- `Recipe.findById`. -/
def findRecipe (l : List Recipe) (rid : Nat) : Option Recipe :=
  l.find? (fun r => r.id == rid)

/-- `User.findById`. -/
def findUser (l : List User) (uid : Nat) : Option User :=
  l.find? (fun u => u.id == uid)

/-- `recipe.save()`: persist a mutation of the recipe with id `rid`. -/
def updateRecipe (l : List Recipe) (rid : Nat) (f : Recipe → Recipe) :
    List Recipe :=
  l.map (fun r => if r.id == rid then f r else r)

/-- `user.save()`: persist a mutation of the user with id `uid`. -/
def updateUser (l : List User) (uid : Nat) (f : User → User) : List User :=
  l.map (fun u => if u.id == uid then f u else u)

/-- The favorite-removal mutation on a user document:
`user.favoriteRecipes = user.favoriteRecipes.filter(id => id !== rid)`. -/
def removeFav (rid : Nat) (w : User) : User :=
  { w with favoriteRecipes := w.favoriteRecipes.filter (fun z => z != rid) }

/-- One route invocation: the next state and the reported error.

The create branch persists the body's seeded `ratings` and `comments`
lists, as the source's `...req.body` spread does.  On save, Mongoose
runs the schema validators; of these only the rating bounds
(`min: 1, max: 5`) constrain the ratings list, so they alone are
modelled — a violating create is rejected by the save (a 500 in the
route's catch), leaving the state unchanged.  Notably, no validator
prevents two seeded entries sharing a user. -/
def stepOp (s : CState) (op : Op) : CState × Option CatalogErr :=
  match op with
  | .create d =>
    if d.ratings.all (fun e => decide (1 ≤ e.rating) && decide (e.rating ≤ 5)) then
      ({ s with
          recipes := s.recipes ++
            [{ id := s.nextId, title := d.title, description := d.description
               cuisine := d.cuisine, diet := d.diet, difficulty := d.difficulty
               prepTime := d.prepTime, cookTime := d.cookTime
               servings := d.servings, calories := d.calories
               ingredients := d.ingredients, author := d.author
               ratings := d.ratings, comments := d.comments
               createdAt := d.now }]
          nextId := s.nextId + 1 }, none)
    else (s, some .ServerError)
  | .rate rid u v now =>
    match findRecipe s.recipes rid with
    | none => (s, some .RecipeNotFound)
    | some _ =>
      let rs := updateRecipe s.recipes rid
        (fun r => { r with ratings := rateList r.ratings u v now })
      ({ s with recipes := rs }, none)
  | .comment rid u text now =>
    match findRecipe s.recipes rid with
    | none => (s, some .RecipeNotFound)
    | some _ =>
      let rs := updateRecipe s.recipes rid
        (fun r => { r with comments := r.comments ++ [⟨u, text, now⟩] })
      ({ s with recipes := rs }, none)
  | .favAdd uid rid =>
    match findRecipe s.recipes rid with
    | none => (s, some .RecipeNotFound)
    | some recipe =>
      match findUser s.users uid with
      | none => (s, some .ServerError)
      | some user =>
        if user.favoriteRecipes.contains recipe.id then
          (s, some .AlreadyFavorited)
        else
          let us := updateUser s.users uid
            (fun w => { w with favoriteRecipes := w.favoriteRecipes ++ [recipe.id] })
          ({ s with users := us }, none)
  | .favRemove uid rid =>
    match findUser s.users uid with
    | none => (s, some .ServerError)
    | some _ =>
      let us := updateUser s.users uid (removeFav rid)
      ({ s with users := us }, none)

/-- Run a sequence of operations (each route call keeps the state it
produced; an error keeps the previous state). -/
def execOps (s : CState) (ops : List Op) : CState :=
  ops.foldl (fun t op => (stepOp t op).1) s

/-- The initial catalog: no recipes yet; the user table is whatever the
auth subsystem created. -/
def initState (users : List User) : CState :=
  { recipes := [], users := users, nextId := 0 }

/-- At most one rating entry per user on every recipe of the state. -/
def RatingsUnique (s : CState) : Prop :=
  ∀ r ∈ s.recipes, ∀ u : Nat, (userEntries r.ratings u).length ≤ 1

/-- Whether an operation's create payload seeds at most one rating
entry per user (true of every non-create operation, and of any create
whose body carries no ratings field). -/
def seedsUniqueOk (op : Op) : Bool :=
  match op with
  | .create d =>
    d.ratings.all (fun e => decide ((userEntries d.ratings e.user).length ≤ 1))
  | _ => true

/-! ### Concrete sample data used by the witnesses and counterexamples -/

/-- A well-formed recipe used as the base of the samples. -/
def baseRecipe : Recipe where
  id := 1
  title := "Spaghetti"
  description := "Fast pasta"
  cuisine := "Italian"
  diet := "Regular"
  difficulty := "Easy"
  prepTime := 10
  cookTime := 15
  servings := 2
  calories := some 600
  ingredients := [⟨"pasta", "200g"⟩, ⟨"tomato", "2"⟩]
  author := 1
  ratings := []
  comments := []
  createdAt := 100

/-- A recipe whose ratings are `[5, 4, 3]` (from three users). -/
def recipe543 : Recipe :=
  { baseRecipe with ratings := [⟨1, 5, 0⟩, ⟨2, 4, 0⟩, ⟨3, 3, 0⟩] }

/-- A recipe with 20 ratings summing to 87 (seven 5s, thirteen 4s from
distinct users): mean 87/20 = 4.35, whose nearest double lies just
below 4.35. -/
def recipe87 : Recipe :=
  { baseRecipe with
    ratings := (List.range 20).map
      (fun i => ⟨i + 1, if i < 7 then 5 else 4, 0⟩) }

/-- The recipe document that creating with `dupSeedCreate` stores:
its ratings list carries user 7 twice. -/
def dupSeededRecipe : Recipe where
  id := 0
  title := "t"
  description := "d"
  cuisine := "c"
  diet := "Regular"
  difficulty := "Easy"
  prepTime := 1
  cookTime := 1
  servings := 1
  calories := none
  ingredients := [⟨"x", "1"⟩]
  author := 1
  ratings := [⟨7, 4, 0⟩, ⟨7, 2, 0⟩]
  comments := []
  createdAt := 0

/-- A create payload whose body seeds two rating entries for user 7,
both values passing the schema's 1..5 bounds — exactly what the
route's `...req.body` spread lets through. -/
def dupSeedCreate : NewRecipe where
  title := "t"
  description := "d"
  cuisine := "c"
  diet := "Regular"
  difficulty := "Easy"
  prepTime := 1
  cookTime := 1
  servings := 1
  calories := none
  ingredients := [⟨"x", "1"⟩]
  ratings := [⟨7, 4, 0⟩, ⟨7, 2, 0⟩]
  comments := []
  author := 1
  now := 0

/-- A recipe with average rating 2.0 but maximum rating 5. -/
def recipeMaxHigh : Recipe :=
  { baseRecipe with id := 10, createdAt := 50
                    ratings := [⟨1, 5, 0⟩, ⟨2, 1, 0⟩, ⟨3, 1, 0⟩, ⟨4, 1, 0⟩] }

/-- A recipe with average rating 4.0 but maximum rating 4, created at
the same instant as `recipeMaxHigh`. -/
def recipeAvgHigh : Recipe :=
  { baseRecipe with id := 11, createdAt := 50
                    ratings := [⟨1, 4, 0⟩, ⟨2, 4, 0⟩, ⟨3, 4, 0⟩] }

/-- An Italian recipe with `prepTime` 25. -/
def italian25 : Recipe :=
  { baseRecipe with id := 20, prepTime := 25 }

/-- An Italian recipe with `prepTime` 10. -/
def italian10 : Recipe :=
  { baseRecipe with id := 21, prepTime := 10 }

/-- The query `{cuisine: "Italian", maxPrepTime: "20"}`. -/
def italianQuick : Query :=
  { cuisine := some "Italian", maxPrepTime := some "20" }

/-- The query `{maxPrepTime: "abc"}` (malformed numeric input). -/
def malformedQuery : Query :=
  { maxPrepTime := some "abc" }

/-- The text predicate used where free-text search plays no role. -/
def anyText : String → Recipe → Bool := fun _ _ => true

/-- 25 recipes that all match the empty filter, with distinct creation
times. -/
def store25 : List Recipe :=
  (List.range 25).map (fun i => { baseRecipe with id := i, createdAt := i })

/-- A user with recipe 1 among their favourites. -/
def fanUser : User where
  id := 7
  favoriteRecipes := [1]

/-- A sample catalog state: one recipe, one user. -/
def sampleState : CState where
  recipes := [baseRecipe]
  users := [fanUser]
  nextId := 2

/-! ## Helper lemmas -/

theorem insertBy_perm {α : Type} (le : α → α → Bool) (a : α) (l : List α) :
    List.Perm (insertBy le a l) (a :: l) := by
  induction l with
  | nil => rfl
  | cons b t ih =>
    by_cases h : le a b = true
    · simp [insertBy, h]
    · simp only [insertBy, h, if_neg, Bool.not_eq_true, if_false]
      exact (ih.cons b).trans (List.Perm.swap a b t)

theorem sortBy_perm {α : Type} (le : α → α → Bool) (l : List α) :
    List.Perm (sortBy le l) l := by
  induction l with
  | nil => rfl
  | cons a t ih => exact (insertBy_perm le a (sortBy le t)).trans (ih.cons a)

theorem mem_insertBy {α : Type} (le : α → α → Bool) (a x : α) (l : List α) :
    x ∈ insertBy le a l ↔ x = a ∨ x ∈ l := by
  rw [(insertBy_perm le a l).mem_iff, List.mem_cons]

theorem pairwise_insertBy {α : Type} {le : α → α → Bool}
    (htot : ∀ x y, le x y || le y x)
    (htrans : ∀ x y z, le x y → le y z → le x z)
    {a : α} {l : List α} (h : l.Pairwise (fun x y => le x y = true)) :
    (insertBy le a l).Pairwise (fun x y => le x y = true) := by
  induction l with
  | nil => simp [insertBy]
  | cons b t ih =>
    rcases List.pairwise_cons.1 h with ⟨h1, h2⟩
    by_cases hab : le a b = true
    · simp only [insertBy, hab, if_pos]
      refine List.pairwise_cons.2 ⟨?_, h⟩
      intro y hy
      rcases List.mem_cons.1 hy with rfl | hyt
      · exact hab
      · exact htrans a b y hab (h1 y hyt)
    · simp only [insertBy, hab, if_neg, Bool.not_eq_true, if_false]
      refine List.pairwise_cons.2 ⟨?_, ih h2⟩
      intro y hy
      rcases (mem_insertBy le a y t).1 hy with rfl | hyt
      · have := htot y b
        simp only [hab, Bool.false_or] at this
        exact this
      · exact h1 y hyt

theorem sortBy_pairwise {α : Type} {le : α → α → Bool}
    (htot : ∀ x y, le x y || le y x)
    (htrans : ∀ x y z, le x y → le y z → le x z) (l : List α) :
    (sortBy le l).Pairwise (fun x y => le x y = true) := by
  induction l with
  | nil => exact List.Pairwise.nil
  | cons a t ih => exact pairwise_insertBy htot htrans ih

theorem sumRatings_eq_sum (l : List RatingEntry) :
    sumRatings l = (l.map (fun e => e.rating)).sum := by
  have key : ∀ (l : List RatingEntry) (acc : Nat),
      l.foldl (fun a e => a + e.rating) acc = acc + (l.map (fun e => e.rating)).sum := by
    intro l
    induction l with
    | nil => intro acc; simp
    | cons e t ih =>
      intro acc
      simp only [List.foldl_cons, List.map_cons, List.sum_cons, ih]
      omega
  simpa [sumRatings] using key l 0

theorem userEntries_append (l₁ l₂ : List RatingEntry) (u : Nat) :
    userEntries (l₁ ++ l₂) u = userEntries l₁ u ++ userEntries l₂ u := by
  simp [userEntries, List.filter_append]

theorem userEntries_eq_nil_of_find?_none {l : List RatingEntry} {u : Nat}
    (h : l.find? (fun e => e.user == u) = none) : userEntries l u = [] := by
  rw [List.find?_eq_none] at h
  simp only [userEntries, List.filter_eq_nil_iff]
  intro e he
  exact h e he

theorem length_userEntries_setFirstRating (l : List RatingEntry) (u v w : Nat) :
    (userEntries (setFirstRating l u v) w).length = (userEntries l w).length := by
  induction l with
  | nil => rfl
  | cons e t ih =>
    by_cases h : e.user == u
    · simp only [setFirstRating, h, if_pos, userEntries, List.filter_cons]
      by_cases hw : e.user == w <;> simp [hw, userEntries]
    · simp only [setFirstRating, h, if_neg, Bool.not_eq_true, if_false,
        userEntries, List.filter_cons]
      by_cases hw : e.user == w <;> simp [hw] <;>
        simpa [userEntries] using ih

theorem userEntries_setFirstRating_self {l : List RatingEntry} {u : Nat}
    {e : RatingEntry} (h : userEntries l u = [e]) (v : Nat) :
    userEntries (setFirstRating l u v) u = [{ e with rating := v }] := by
  induction l with
  | nil => simp [userEntries] at h
  | cons x t ih =>
    obtain ⟨xu, xr, xc⟩ := x
    by_cases hx : (xu == u) = true
    · simp only [userEntries, List.filter_cons, hx, if_pos] at h
      rcases List.cons_eq_cons.1 h with ⟨rfl, ht⟩
      simp only [setFirstRating, userEntries, List.filter_cons, hx, if_pos]
      simpa [userEntries] using ht
    · simp only [userEntries, List.filter_cons, hx, Bool.false_eq_true, if_false] at h
      simp only [setFirstRating, userEntries, List.filter_cons, hx,
        Bool.false_eq_true, if_false]
      simpa [userEntries] using ih h

theorem userEntries_rateList_self {l : List RatingEntry} {u : Nat}
    (h : (userEntries l u).length ≤ 1) (v now : Nat) :
    ∃ t : Nat, userEntries (rateList l u v now) u = [⟨u, v, t⟩] := by
  cases hf : l.find? (fun e => e.user == u) with
  | none =>
    refine ⟨now, ?_⟩
    rw [rateList, hf, userEntries_append, userEntries_eq_nil_of_find?_none hf]
    simp [userEntries]
  | some e₀ =>
    have he₀l : e₀ ∈ l := List.mem_of_find?_eq_some hf
    have he₀u : (e₀.user == u) = true := by
      have := List.find?_some hf
      simpa using this
    have hmem : e₀ ∈ userEntries l u := List.mem_filter.2 ⟨he₀l, he₀u⟩
    have hne : userEntries l u ≠ [] := by
      intro hnil; rw [hnil] at hmem; exact List.not_mem_nil e₀ hmem
    have hlen : (userEntries l u).length = 1 := by
      have := List.length_pos.2 hne
      omega
    rcases List.length_eq_one.1 hlen with ⟨e, he⟩
    have : e₀ = e := by
      rw [he] at hmem
      simpa using hmem
    subst this
    refine ⟨e₀.createdAt, ?_⟩
    rw [rateList, hf, userEntries_setFirstRating_self he v]
    have : ({ e₀ with rating := v } : RatingEntry) = ⟨u, v, e₀.createdAt⟩ := by
      have : e₀.user = u := by simpa using he₀u
      cases e₀
      simp_all
    rw [this]

theorem length_userEntries_rateList {l : List RatingEntry} {u : Nat}
    (h : ∀ w, (userEntries l w).length ≤ 1) (v now : Nat) :
    ∀ w, (userEntries (rateList l u v now) w).length ≤ 1 := by
  intro w
  cases hf : l.find? (fun e => e.user == u) with
  | none =>
    rw [rateList, hf, userEntries_append]
    by_cases hw : w = u
    · subst hw
      rw [userEntries_eq_nil_of_find?_none hf]
      simp [userEntries]
    · have : userEntries [(⟨u, v, now⟩ : RatingEntry)] w = [] := by
        simp [userEntries, hw, Ne.symm hw]
      rw [this, List.append_nil]
      exact h w
  | some e₀ =>
    rw [rateList, hf, length_userEntries_setFirstRating]
    exact h w

theorem recipesUnique_updateRecipe {rs : List Recipe} {rid : Nat}
    {f : Recipe → Recipe}
    (hf : ∀ r : Recipe, (∀ u, (userEntries r.ratings u).length ≤ 1) →
      ∀ u, (userEntries (f r).ratings u).length ≤ 1)
    (h : ∀ r ∈ rs, ∀ u : Nat, (userEntries r.ratings u).length ≤ 1) :
    ∀ r ∈ updateRecipe rs rid f, ∀ u : Nat,
      (userEntries r.ratings u).length ≤ 1 := by
  intro r hr u
  simp only [updateRecipe, List.mem_map] at hr
  obtain ⟨r₁, h₁, heq⟩ := hr
  by_cases hid : (r₁.id == rid) = true
  · simp only [hid, if_true] at heq
    subst heq
    exact hf r₁ (h r₁ h₁) u
  · simp only [eq_false_of_ne_true hid, if_false] at heq
    subst heq
    exact h r₁ h₁ u

theorem seedsUnique_of_ok {d : NewRecipe}
    (h : seedsUniqueOk (.create d) = true) :
    ∀ u : Nat, (userEntries d.ratings u).length ≤ 1 := by
  intro u
  by_cases hu : ∃ e ∈ d.ratings, e.user = u
  · obtain ⟨e, he, heq⟩ := hu
    subst heq
    simp only [seedsUniqueOk, List.all_eq_true] at h
    have := h e he
    simpa using this
  · push_neg at hu
    have hnil : userEntries d.ratings u = [] := by
      simp only [userEntries, List.filter_eq_nil_iff]
      intro e he
      simpa using hu e he
    rw [hnil]
    simp

theorem ratingsUnique_stepOp (s : CState) (op : Op)
    (hop : seedsUniqueOk op = true) (h : RatingsUnique s) :
    RatingsUnique (stepOp s op).1 := by
  cases op with
  | create d =>
    by_cases hval :
        (d.ratings.all (fun e => decide (1 ≤ e.rating) && decide (e.rating ≤ 5)))
          = true
    · intro r hr u
      simp only [stepOp, hval, if_true] at hr
      rcases List.mem_append.1 hr with hr | hr
      · exact h r hr u
      · simp only [List.mem_singleton] at hr
        subst hr
        exact seedsUnique_of_ok hop u
    · intro r hr u
      simp only [stepOp, eq_false_of_ne_true hval, if_false] at hr
      exact h r hr u
  | rate rid u v now =>
    cases hf : findRecipe s.recipes rid with
    | none =>
      simp only [stepOp, hf]
      exact h
    | some r₀ =>
      simp only [stepOp, hf]
      intro r hr w
      refine recipesUnique_updateRecipe ?_ h r hr w
      intro r₁ h₁ w₁
      exact length_userEntries_rateList h₁ v now w₁
  | comment rid u text now =>
    cases hf : findRecipe s.recipes rid with
    | none =>
      simp only [stepOp, hf]
      exact h
    | some r₀ =>
      simp only [stepOp, hf]
      intro r hr w
      refine recipesUnique_updateRecipe ?_ h r hr w
      intro r₁ h₁ w₁
      exact h₁ w₁
  | favAdd uid rid =>
    cases hf : findRecipe s.recipes rid with
    | none =>
      simp only [stepOp, hf]
      exact h
    | some r₀ =>
      cases hu : findUser s.users uid with
      | none =>
        simp only [stepOp, hf, hu]
        exact h
      | some w =>
        by_cases hc : w.favoriteRecipes.contains r₀.id = true
        · simp only [stepOp, hf, hu, hc, if_pos]
          exact h
        · simp only [stepOp, hf, hu, eq_false_of_ne_true hc, if_neg,
            Bool.false_eq_true, not_false_eq_true]
          exact h
  | favRemove uid rid =>
    cases hu : findUser s.users uid with
    | none =>
      simp only [stepOp, hu]
      exact h
    | some w =>
      simp only [stepOp, hu]
      exact h

/-! ## Claim theorems -/

/-- C1: rate is an upsert keyed by user: for every recipe ratings list
with at most one entry for user `u`, valid values `v1` and `v2`, rating
with `v1` and then with `v2` leaves exactly one entry for `u`, holding
`v2` (the second call overwrites in place, it does not append a
duplicate). -/
theorem rate_upsert_per_user (l : List RatingEntry) (u v1 v2 now1 now2 : Nat)
    (hv1 : 1 ≤ v1 ∧ v1 ≤ 5) (hv2 : 1 ≤ v2 ∧ v2 ≤ 5)
    (h : (userEntries l u).length ≤ 1) :
    (userEntries (rateList (rateList l u v1 now1) u v2 now2) u).map
      (fun e => e.rating) = [v2] := by
  obtain ⟨t1, h1⟩ := userEntries_rateList_self h v1 now1
  have h1len : (userEntries (rateList l u v1 now1) u).length ≤ 1 := by
    rw [h1]
    simp
  obtain ⟨t2, h2⟩ := userEntries_rateList_self h1len v2 now2
  rw [h2]
  rfl

/-- Witness for C1: user 7 rates 3 and then 5 on an empty ratings list;
exactly one entry remains and it holds 5. -/
theorem rate_upsert_per_user_witness :
    (userEntries (rateList (rateList [] 7 3 10) 7 5 11) 7).map
      (fun e => e.rating) = [5] :=
  rate_upsert_per_user [] 7 3 5 10 11 ⟨by decide, by decide⟩
    ⟨by decide, by decide⟩ (by decide)

/-- C2 counterexample: the create route spreads the request body into
the document, so a create whose body seeds two (individually valid)
rating entries for user 7 reaches a state in which a recipe carries two
rating entries for the same user — the uniqueness invariant fails on a
reachable state. -/
theorem ratings_unique_counterexample :
    ¬ RatingsUnique (execOps (initState []) [.create dupSeedCreate]) := by
  intro h
  have hmem : dupSeededRecipe
      ∈ (execOps (initState []) [.create dupSeedCreate]).recipes := by decide
  have hle := h _ hmem 7
  revert hle
  decide

/-- C2 (amended): rate, comment and favorite never introduce a second
rating entry for a user, and create preserves uniqueness exactly when
its payload does not seed duplicate entries: every state reached from
the initial catalog by operations whose create payloads carry at most
one rating entry per user (in particular bodies without a ratings
field) keeps at most one rating entry per user on every recipe. -/
theorem ratings_unique_invariant (users : List User) (ops : List Op)
    (hops : ∀ op ∈ ops, seedsUniqueOk op = true) :
    RatingsUnique (execOps (initState users) ops) := by
  have gen : ∀ (ops : List Op), (∀ op ∈ ops, seedsUniqueOk op = true) →
      ∀ s : CState, RatingsUnique s → RatingsUnique (execOps s ops) := by
    intro ops
    induction ops with
    | nil => intro _ s hs; exact hs
    | cons op t ih =>
      intro hall s hs
      exact ih (fun o ho => hall o (List.mem_cons_of_mem op ho)) _
        (ratingsUnique_stepOp s op (hall op (List.mem_cons_self op t)) hs)
  refine gen ops hops _ ?_
  intro r hr u
  simp [initState] at hr

/-- C6: rating a nonexistent recipe id fails with RecipeNotFound and
returns the state fully unchanged (no recipe, no user, nothing is
modified). -/
theorem rate_nonexistent_unchanged (s : CState) (rid u v now : Nat)
    (hv : 1 ≤ v ∧ v ≤ 5) (h : findRecipe s.recipes rid = none) :
    stepOp s (.rate rid u v now) = (s, some .RecipeNotFound) := by
  simp only [stepOp, h]

/-- Witness for C6: rating recipe id 99 in the sample state (which only
holds recipe 1) errors and keeps the state. -/
theorem rate_nonexistent_unchanged_witness :
    stepOp sampleState (.rate 99 7 3 0) = (sampleState, some .RecipeNotFound) :=
  rate_nonexistent_unchanged sampleState 99 7 3 0 ⟨by decide, by decide⟩
    (by decide)

/-- C5: favorite add rejects duplicates visibly (AlreadyFavorited, set
unchanged) and requires the recipe to exist (RecipeNotFound first),
while favorite remove of a non-member is a silent no-op and never
consults the recipe collection. -/
theorem favorite_asymmetry :
    (∀ (s : CState) (uid rid : Nat) (r : Recipe) (w : User),
      findRecipe s.recipes rid = some r → findUser s.users uid = some w →
      w.favoriteRecipes.contains r.id = true →
      stepOp s (.favAdd uid rid) = (s, some .AlreadyFavorited)) ∧
    (∀ (s : CState) (uid rid : Nat),
      findRecipe s.recipes rid = none →
      stepOp s (.favAdd uid rid) = (s, some .RecipeNotFound)) ∧
    (∀ (s : CState) (uid rid : Nat) (w : User),
      findUser s.users uid = some w →
      (∀ x ∈ s.users, x.id = uid → x.favoriteRecipes.contains rid = false) →
      stepOp s (.favRemove uid rid) = (s, none)) ∧
    (∀ (s : CState) (uid rid : Nat) (w : User),
      findUser s.users uid = some w →
      (stepOp s (.favRemove uid rid)).2 = none) := by
  refine ⟨?_, ?_, ?_, ?_⟩
  · intro s uid rid r w hr hw hc
    simp only [stepOp, hr, hw, hc, if_true]
  · intro s uid rid hr
    simp only [stepOp, hr]
  · intro s uid rid w hw hnone
    simp only [stepOp, hw]
    have hpt : ∀ x ∈ s.users,
        (if x.id == uid then removeFav rid x else x) = x := by
      intro x hx
      by_cases hid : (x.id == uid) = true
      · simp only [hid, if_true]
        have hxid : x.id = uid := by simpa using hid
        have hmem : rid ∉ x.favoriteRecipes := by
          have hcon : x.favoriteRecipes.contains rid = false := hnone x hx hxid
          simpa using hcon
        have hfilt : x.favoriteRecipes.filter (fun z => z != rid) =
            x.favoriteRecipes := by
          refine List.filter_eq_self.2 ?_
          intro a ha
          refine bne_iff_ne.2 ?_
          intro hEq
          exact hmem (hEq ▸ ha)
        rw [removeFav, hfilt]
      · simp [eq_false_of_ne_true hid]
    have husers : updateUser s.users uid (removeFav rid) = s.users := by
      unfold updateUser
      calc List.map (fun x : User => if x.id == uid then removeFav rid x else x)
            s.users
          = List.map id s.users := List.map_congr_left hpt
        _ = s.users := List.map_id s.users
    rw [husers]
  · intro s uid rid w hw
    simp only [stepOp, hw]

/-- Witness for C5: in the sample state, re-adding recipe 1 to user 7's
favourites is rejected with the state unchanged; adding recipe 99 fails
with RecipeNotFound; removing the non-member recipe 99 silently leaves
the state unchanged. -/
theorem favorite_asymmetry_witness :
    stepOp sampleState (.favAdd 7 1) = (sampleState, some .AlreadyFavorited) ∧
    stepOp sampleState (.favAdd 7 99) = (sampleState, some .RecipeNotFound) ∧
    stepOp sampleState (.favRemove 7 99) = (sampleState, none) :=
  ⟨favorite_asymmetry.1 sampleState 7 1 baseRecipe fanUser (by decide)
      (by decide) (by decide),
   favorite_asymmetry.2.1 sampleState 7 99 (by decide),
   favorite_asymmetry.2.2.1 sampleState 7 99 fanUser (by decide) (by decide)⟩

theorem log2_eq_of_bounds {q : ℚ} {e : ℤ} (h0 : 0 < q)
    (h1 : (2 : ℚ) ^ e ≤ q) (h2 : q < 2 ^ (e + 1)) : Int.log 2 q = e := by
  have hb : (1 : ℕ) < 2 := one_lt_two
  have hL1 : ((2 : ℕ) : ℚ) ^ Int.log 2 q ≤ q := Int.zpow_log_le_self hb h0
  have hL2 : q < ((2 : ℕ) : ℚ) ^ (Int.log 2 q + 1) :=
    Int.lt_zpow_succ_log_self hb q
  rw [show ((2 : ℕ) : ℚ) = (2 : ℚ) from by norm_num] at hL1 hL2
  have h3 : (2 : ℚ) ^ Int.log 2 q < 2 ^ (e + 1) := lt_of_le_of_lt hL1 h2
  have h4 : (2 : ℚ) ^ e < 2 ^ (Int.log 2 q + 1) := lt_of_le_of_lt h1 hL2
  have h5 : Int.log 2 q < e + 1 :=
    (zpow_lt_zpow_iff_right₀ (by norm_num : (1 : ℚ) < 2)).1 h3
  have h6 : e < Int.log 2 q + 1 :=
    (zpow_lt_zpow_iff_right₀ (by norm_num : (1 : ℚ) < 2)).1 h4
  omega

theorem roundTiesEven_eq_of_lt {x : ℚ} {n : ℤ} (h1 : (n : ℚ) ≤ x)
    (h2 : x < (n : ℚ) + 1 / 2) : roundTiesEven x = n := by
  have hf : ⌊x⌋ = n := Int.floor_eq_iff.2 ⟨h1, by linarith⟩
  rw [roundTiesEven, hf, if_pos (by linarith : x - (n : ℚ) < 1 / 2)]

theorem roundTiesEven_close (x : ℚ) :
    |(roundTiesEven x : ℚ) - x| ≤ 1 / 2 := by
  have h1 : ((⌊x⌋ : ℤ) : ℚ) ≤ x := Int.floor_le x
  have h2 : x < (⌊x⌋ : ℚ) + 1 := Int.lt_floor_add_one x
  rw [roundTiesEven]
  split_ifs with hc1 hc2 hc3 <;> rw [abs_le] <;> constructor <;>
    push_cast <;> linarith

theorem roundToDouble_eval {q : ℚ} {e n : ℤ} (h0 : 0 < q)
    (h1 : (2 : ℚ) ^ e ≤ q) (h2 : q < 2 ^ (e + 1))
    (h3 : (n : ℚ) ≤ q * 2 ^ ((52 : ℤ) - e))
    (h4 : q * 2 ^ ((52 : ℤ) - e) < (n : ℚ) + 1 / 2) :
    roundToDouble q = (n : ℚ) * 2 ^ (e - 52) := by
  rw [roundToDouble, if_neg (not_le.2 h0), log2_eq_of_bounds h0 h1 h2,
    roundTiesEven_eq_of_lt h3 h4]

theorem roundToDouble_halfUlp (q : ℚ) (h0 : 0 < q) :
    |roundToDouble q - q| ≤ 2 ^ (Int.log 2 q - 53) := by
  rw [roundToDouble, if_neg (not_le.2 h0)]
  have hne : (2 : ℚ) ≠ 0 := two_ne_zero
  have hpos : (0 : ℚ) < 2 ^ (Int.log 2 q - 52) := zpow_pos (by norm_num) _
  have hmul : (2 : ℚ) ^ ((52 : ℤ) - Int.log 2 q) * 2 ^ (Int.log 2 q - 52)
      = 1 := by
    rw [← zpow_add₀ hne]
    rw [show (52 : ℤ) - Int.log 2 q + (Int.log 2 q - 52) = 0 from by ring]
    exact zpow_zero 2
  have hkey := roundTiesEven_close (q * 2 ^ ((52 : ℤ) - Int.log 2 q))
  have hrw : ((roundTiesEven (q * 2 ^ ((52 : ℤ) - Int.log 2 q)) : ℤ) : ℚ) *
        2 ^ (Int.log 2 q - 52) - q
      = (((roundTiesEven (q * 2 ^ ((52 : ℤ) - Int.log 2 q)) : ℤ) : ℚ) -
          q * 2 ^ ((52 : ℤ) - Int.log 2 q)) * 2 ^ (Int.log 2 q - 52) := by
    have expand : (((roundTiesEven (q * 2 ^ ((52 : ℤ) - Int.log 2 q)) : ℤ) : ℚ) -
          q * 2 ^ ((52 : ℤ) - Int.log 2 q)) * 2 ^ (Int.log 2 q - 52)
        = ((roundTiesEven (q * 2 ^ ((52 : ℤ) - Int.log 2 q)) : ℤ) : ℚ) *
            2 ^ (Int.log 2 q - 52) -
          q * ((2 : ℚ) ^ ((52 : ℤ) - Int.log 2 q) * 2 ^ (Int.log 2 q - 52)) := by
      ring
    rw [expand, hmul, mul_one]
  rw [hrw, abs_mul, abs_of_pos hpos]
  calc |((roundTiesEven (q * 2 ^ ((52 : ℤ) - Int.log 2 q)) : ℤ) : ℚ) -
          q * 2 ^ ((52 : ℤ) - Int.log 2 q)| * 2 ^ (Int.log 2 q - 52)
      ≤ 1 / 2 * 2 ^ (Int.log 2 q - 52) :=
        mul_le_mul_of_nonneg_right hkey (le_of_lt hpos)
    _ = 2 ^ (Int.log 2 q - 53) := by
        rw [show (1 / 2 : ℚ) = 2 ^ (-1 : ℤ) from by norm_num, ← zpow_add₀ hne]
        rw [show (-1 : ℤ) + (Int.log 2 q - 52) = Int.log 2 q - 53 from by ring]

theorem roundToDouble_two : roundToDouble (2 : ℚ) = 2 := by
  have h := roundToDouble_eval (q := 2) (e := 1) (n := 2 ^ 52) (by norm_num)
    (by norm_num) (by norm_num) (by push_cast; norm_num) (by push_cast; norm_num)
  rw [h]
  rw [zpow_sub₀ (two_ne_zero)]
  push_cast
  norm_num

theorem roundToDouble_four : roundToDouble (4 : ℚ) = 4 := by
  have h := roundToDouble_eval (q := 4) (e := 2) (n := 2 ^ 52) (by norm_num)
    (by norm_num) (by norm_num) (by push_cast; norm_num) (by push_cast; norm_num)
  rw [h]
  rw [zpow_sub₀ (two_ne_zero)]
  push_cast
  norm_num

theorem roundToDouble_87_20 :
    roundToDouble (87 / 20 : ℚ) = 4897664594765414 / 2 ^ 50 := by
  have h := roundToDouble_eval (q := 87 / 20) (e := 2) (n := 4897664594765414)
    (by norm_num) (by norm_num) (by norm_num) (by push_cast; norm_num)
    (by push_cast; norm_num)
  rw [h, zpow_sub₀ (two_ne_zero)]
  push_cast
  norm_num

theorem averageRating_eval (r : Recipe) (sum len : ℕ) (d : ℚ) (v : ℤ)
    (hsum : sumRatings r.ratings = sum) (hlen : r.ratings.length = len)
    (hlen0 : len ≠ 0)
    (hd : roundToDouble ((sum : ℚ) / (len : ℚ)) = d)
    (hv : ⌊(10 : ℚ) * d + 1 / 2⌋ = v) :
    averageRating r = (v : ℚ) / 10 := by
  rw [averageRating, if_neg (by simpa [hlen] using hlen0), hsum, hlen, hd,
    toFixed1, hv]

theorem averageRating_recipe87_eq : averageRating recipe87 = 43 / 10 := by
  have hd : roundToDouble (((87 : ℕ) : ℚ) / ((20 : ℕ) : ℚ))
      = 4897664594765414 / 2 ^ 50 := by
    rw [show ((87 : ℕ) : ℚ) / ((20 : ℕ) : ℚ) = 87 / 20 from by norm_num]
    exact roundToDouble_87_20
  have hv : ⌊(10 : ℚ) * (4897664594765414 / 2 ^ 50) + 1 / 2⌋ = (43 : ℤ) := by
    rw [Int.floor_eq_iff]
    constructor <;> norm_num
  have h := averageRating_eval recipe87 87 20 (4897664594765414 / 2 ^ 50) 43
    (by decide) (by decide) (by decide) hd hv
  rw [h]
  norm_num

/-- C3 counterexample: the virtual computes toFixed(1) of the binary64
quotient, not half-up of the exact mean: for 20 ratings summing 87 the
exact mean is 4.35, half-up to one decimal gives 4.4, but the nearest
double lies below 4.35 and the program yields 4.3. -/
theorem averageRating_not_half_up :
    sumRatings recipe87.ratings = 87 ∧
    recipe87.ratings.length = 20 ∧
    averageRating recipe87 = 43 / 10 ∧
    toFixed1 ((87 : ℚ) / 20) = 44 / 10 ∧
    (43 / 10 : ℚ) ≠ 44 / 10 := by
  refine ⟨by decide, by decide, averageRating_recipe87_eq, ?_, by norm_num⟩
  have h44 : ⌊(10 : ℚ) * (87 / 20) + 1 / 2⌋ = (44 : ℤ) := by
    rw [Int.floor_eq_iff]
    constructor <;> norm_num
  rw [toFixed1, h44]
  norm_num

/-- C3 (amended): averageRating is a pure function of the ratings
list: 0 for an empty list; otherwise the mean is computed in binary64
(the exact quotient rounded to the nearest double, within half an ulp)
and that double is rounded to one decimal with half-up rounding
(toFixed(1): a multiple of 1/10 within 1/20 of the double, ties up).
For [5,4,3] the mean 4 is an exact double and the result is 4.0; for
20 ratings summing 87 the result is 4.3, not the 4.4 half-up would
give on the exact mean 4.35. -/
theorem averageRating_double_rounding :
    (∀ r : Recipe, r.ratings = [] → averageRating r = 0) ∧
    (∀ r : Recipe, r.ratings ≠ [] →
      averageRating r =
        toFixed1 (roundToDouble
          (((r.ratings.map (fun e => (e.rating : ℕ))).sum : ℚ) /
            (r.ratings.length : ℚ)))) ∧
    (∀ q : ℚ, (∃ n : ℤ, toFixed1 q = (n : ℚ) / 10) ∧
      toFixed1 q - 1 / 20 ≤ q ∧ q < toFixed1 q + 1 / 20) ∧
    (∀ q : ℚ, 0 < q → |roundToDouble q - q| ≤ 2 ^ (Int.log 2 q - 53)) ∧
    (∀ r r' : Recipe, r.ratings = r'.ratings →
      averageRating r = averageRating r') ∧
    averageRating recipe543 = 4 ∧
    averageRating baseRecipe = 0 ∧
    averageRating recipe87 = 43 / 10 := by
  refine ⟨?_, ?_, ?_, ?_, ?_, ?_, ?_, averageRating_recipe87_eq⟩
  · intro r h
    simp [averageRating, h]
  · intro r h
    rw [averageRating, if_neg (by simpa [List.length_eq_zero] using h),
      sumRatings_eq_sum]
  · intro q
    refine ⟨⟨⌊10 * q + 1 / 2⌋, rfl⟩, ?_, ?_⟩
    · have h1 : ((⌊10 * q + 1 / 2⌋ : ℤ) : ℚ) ≤ 10 * q + 1 / 2 :=
        Int.floor_le (10 * q + 1 / 2)
      rw [toFixed1]
      linarith
    · have h2 : 10 * q + 1 / 2 < (⌊10 * q + 1 / 2⌋ : ℤ) + 1 :=
        Int.lt_floor_add_one (10 * q + 1 / 2)
      rw [toFixed1]
      linarith
  · intro q h0
    exact roundToDouble_halfUlp q h0
  · intro r r' h
    simp only [averageRating, h]
  · have hd : roundToDouble (((12 : ℕ) : ℚ) / ((3 : ℕ) : ℚ)) = 4 := by
      rw [show ((12 : ℕ) : ℚ) / ((3 : ℕ) : ℚ) = 4 from by norm_num]
      exact roundToDouble_four
    have hv : ⌊(10 : ℚ) * 4 + 1 / 2⌋ = (40 : ℤ) := by
      rw [Int.floor_eq_iff]
      constructor <;> norm_num
    have h := averageRating_eval recipe543 12 3 4 40 (by decide) (by decide)
      (by decide) hd hv
    rw [h]
    norm_num
  · simp [averageRating, baseRecipe]

/-- Witness for the amended C3: the empty list gives 0; the list
[5,4,3] gives toFixed(1) of the double quotient. -/
theorem averageRating_double_rounding_witness :
    averageRating baseRecipe = 0 ∧
    averageRating recipe543 =
      toFixed1 (roundToDouble
        (((recipe543.ratings.map (fun e => (e.rating : ℕ))).sum : ℚ) /
          (recipe543.ratings.length : ℚ))) :=
  ⟨averageRating_double_rounding.1 baseRecipe rfl,
   averageRating_double_rounding.2.1 recipe543 (by decide)⟩

theorem strCond_build (o : Option String) (x : String) :
    strCond (if jsTruthy o then o else none) x = true ↔
      (jsTruthy o = true → x = o.getD "") := by
  cases o with
  | none => simp [jsTruthy, strCond]
  | some s =>
    by_cases h : s = ""
    · subst h
      simp [jsTruthy, strCond]
    · simp [jsTruthy, strCond, h, beq_iff_eq]

theorem textCond_build (tp : String → Recipe → Bool) (o : Option String)
    (r : Recipe) :
    textCond tp (if jsTruthy o then o else none) r = true ↔
      (jsTruthy o = true → tp (o.getD "") r = true) := by
  cases o with
  | none => simp [jsTruthy, textCond]
  | some s =>
    by_cases h : s = ""
    · subst h
      simp [jsTruthy, textCond]
    · simp [jsTruthy, textCond, h]

theorem numCond_build (o : Option String) (x : Nat) :
    lteCond (if jsTruthy o then some (jsParseInt (o.getD "")) else none) x
        = true ↔
      (jsTruthy o = true → ∃ n : ℤ,
        jsParseInt (o.getD "") = some n ∧ (x : ℤ) ≤ n) := by
  cases o with
  | none => simp [jsTruthy, lteCond]
  | some s =>
    by_cases h : s = ""
    · subst h
      simp [jsTruthy, lteCond]
    · have htru : jsTruthy (some s) = true := by simp [jsTruthy, h]
      rw [htru]
      cases hp : jsParseInt s with
      | none => simp [lteCond, hp]
      | some n => simp [lteCond, hp]

theorem calCond_build (o : Option String) (x : Option Nat) :
    lteCondOpt (if jsTruthy o then some (jsParseInt (o.getD "")) else none) x
        = true ↔
      (jsTruthy o = true → ∃ n : ℤ, jsParseInt (o.getD "") = some n ∧
        ∃ c : ℕ, x = some c ∧ (c : ℤ) ≤ n) := by
  cases o with
  | none => simp [jsTruthy, lteCondOpt]
  | some s =>
    by_cases h : s = ""
    · subst h
      simp [jsTruthy, lteCondOpt]
    · have htru : jsTruthy (some s) = true := by simp [jsTruthy, h]
      rw [htru]
      cases hp : jsParseInt s with
      | none => simp [lteCondOpt, hp]
      | some n =>
        cases x with
        | none => simp [lteCondOpt, hp]
        | some c => simp [lteCondOpt, hp]

theorem ingCond_build (o : Option String) (ings : List Ingredient) :
    ingCond (if jsTruthy o then some ((o.getD "").splitOn ",") else none) ings
        = true ↔
      (jsTruthy o = true → ∃ i ∈ ings,
        i.name ∈ (o.getD "").splitOn ",") := by
  cases o with
  | none => simp [jsTruthy, ingCond]
  | some s =>
    by_cases h : s = ""
    · subst h
      simp [jsTruthy, ingCond]
    · have htru : jsTruthy (some s) = true := by simp [jsTruthy, h]
      rw [htru]
      simp [ingCond, List.any_eq_true]

/-- C7: the built predicate is the logical AND of the supplied
constraints (an absent parameter imposes none); in particular with
{cuisine: "Italian", maxPrepTime: "20"} only recipes whose cuisine is
exactly "Italian" and whose prepTime is at most 20 match, so an Italian
recipe with prepTime 25 is excluded. -/
theorem filter_and_semantics :
    (∀ (tp : String → Recipe → Bool) (q : Query) (r : Recipe),
      matchesFilter tp (buildFilter q) r = true ↔
        ((jsTruthy q.cuisine = true → r.cuisine = q.cuisine.getD "") ∧
         (jsTruthy q.diet = true → r.diet = q.diet.getD "") ∧
         (jsTruthy q.difficulty = true → r.difficulty = q.difficulty.getD "") ∧
         (jsTruthy q.search = true → tp (q.search.getD "") r = true) ∧
         (jsTruthy q.maxPrepTime = true → ∃ n : ℤ,
           jsParseInt (q.maxPrepTime.getD "") = some n ∧ (r.prepTime : ℤ) ≤ n) ∧
         (jsTruthy q.maxCookTime = true → ∃ n : ℤ,
           jsParseInt (q.maxCookTime.getD "") = some n ∧ (r.cookTime : ℤ) ≤ n) ∧
         (jsTruthy q.maxCalories = true → ∃ n : ℤ,
           jsParseInt (q.maxCalories.getD "") = some n ∧
             ∃ c : ℕ, r.calories = some c ∧ (c : ℤ) ≤ n) ∧
         (jsTruthy q.ingredients = true → ∃ i ∈ r.ingredients,
           i.name ∈ (q.ingredients.getD "").splitOn ","))) ∧
    (∀ (tp : String → Recipe → Bool) (r : Recipe),
      matchesFilter tp (buildFilter italianQuick) r = true ↔
        (r.cuisine = "Italian" ∧ r.prepTime ≤ 20)) ∧
    matchesFilter anyText (buildFilter italianQuick) italian25 = false ∧
    matchesFilter anyText (buildFilter italianQuick) italian10 = true := by
  refine ⟨?_, ?_, by decide, by decide⟩
  · intro tp q r
    simp only [matchesFilter, buildFilter, Bool.and_eq_true, strCond_build,
      textCond_build, numCond_build, calCond_build, ingCond_build]
    tauto
  · intro tp r
    have hbf : buildFilter italianQuick =
        { cuisine := some "Italian", diet := none, difficulty := none
          search := none, prepTimeLte := some (some 20), cookTimeLte := none
          caloriesLte := none, ingredientNamesIn := none } := by decide
    rw [hbf]
    simp only [matchesFilter, strCond, textCond, lteCond, lteCondOpt, ingCond,
      Bool.and_eq_true, Bool.and_true, Bool.true_and, beq_iff_eq,
      decide_eq_true_eq]
    constructor
    · rintro ⟨h1, h2⟩
      exact ⟨h1, by omega⟩
    · rintro ⟨h1, h2⟩
      exact ⟨h1, by omega⟩

/-- C9 counterexample: the malformed value "abc" for maxPrepTime is not
treated as an absent parameter: with it the predicate rejects a recipe
that the absent-parameter predicate accepts. -/
theorem malformed_numeric_counterexample :
    matchesFilter anyText (buildFilter malformedQuery) italian10 = false ∧
    matchesFilter anyText
      (buildFilter { malformedQuery with maxPrepTime := none }) italian10
      = true := by
  decide

/-- C9 (amended): a malformed (non-numeric, non-empty) value supplied
for maxPrepTime, maxCookTime or maxCalories yields a `$lte: NaN`
constraint that no recipe satisfies, so the built predicate matches no
recipe at all (the constraint is not dropped); no validation failure
occurs. -/
theorem malformed_numeric_unsatisfiable (tp : String → Recipe → Bool)
    (q : Query) (r : Recipe) (s : String) (hs : s ≠ "")
    (hparse : jsParseInt s = none)
    (h : q.maxPrepTime = some s ∨ q.maxCookTime = some s ∨
      q.maxCalories = some s) :
    matchesFilter tp (buildFilter q) r = false := by
  have htru : jsTruthy (some s) = true := by simp [jsTruthy, hs]
  rcases h with h | h | h
  · have hb : (buildFilter q).prepTimeLte = some none := by
      simp [buildFilter, h, htru, hparse]
    simp [matchesFilter, hb, lteCond]
  · have hb : (buildFilter q).cookTimeLte = some none := by
      simp [buildFilter, h, htru, hparse]
    simp [matchesFilter, hb, lteCond]
  · have hb : (buildFilter q).caloriesLte = some none := by
      simp [buildFilter, h, htru, hparse]
    simp [matchesFilter, hb, lteCondOpt]

/-- Witness for the amended C9: the query {maxPrepTime: "abc"} matches
no recipe, here the Italian recipe with prepTime 10. -/
theorem malformed_numeric_unsatisfiable_witness :
    matchesFilter anyText (buildFilter malformedQuery) italian10 = false :=
  malformed_numeric_unsatisfiable anyText malformedQuery italian10 "abc"
    (by decide) (by decide) (Or.inl rfl)

/-- C10: supplying the empty string for any filter parameter builds
exactly the same filter object as omitting the parameter, so it imposes
no constraint on that dimension. -/
theorem empty_string_params_no_constraint (q : Query) :
    buildFilter { q with cuisine := some "" } =
      buildFilter { q with cuisine := none } ∧
    buildFilter { q with diet := some "" } =
      buildFilter { q with diet := none } ∧
    buildFilter { q with difficulty := some "" } =
      buildFilter { q with difficulty := none } ∧
    buildFilter { q with search := some "" } =
      buildFilter { q with search := none } ∧
    buildFilter { q with maxPrepTime := some "" } =
      buildFilter { q with maxPrepTime := none } ∧
    buildFilter { q with maxCookTime := some "" } =
      buildFilter { q with maxCookTime := none } ∧
    buildFilter { q with maxCalories := some "" } =
      buildFilter { q with maxCalories := none } ∧
    buildFilter { q with ingredients := some "" } =
      buildFilter { q with ingredients := none } := by
  refine ⟨?_, ?_, ?_, ?_, ?_, ?_, ?_, ?_⟩ <;> simp [buildFilter, jsTruthy]

theorem createdDesc_total : ∀ a b : Recipe, createdDesc a b || createdDesc b a := by
  intro a b
  simp only [createdDesc, Bool.or_eq_true, decide_eq_true_eq]
  omega

theorem createdDesc_trans : ∀ a b c : Recipe,
    createdDesc a b → createdDesc b c → createdDesc a c := by
  intro a b c hab hbc
  simp only [createdDesc, decide_eq_true_eq] at *
  omega

theorem ceilDiv_eq_ceil (t s : Nat) (hs : 1 ≤ s) :
    (((t + s - 1) / s : ℕ) : ℤ) = ⌈(t : ℚ) / (s : ℚ)⌉ := by
  have hs0 : 0 < s := hs
  have hd := Nat.div_add_mod (t + s - 1) s
  have hm : (t + s - 1) % s < s := Nat.mod_lt _ hs0
  revert hd hm
  generalize (t + s - 1) / s = q
  generalize (t + s - 1) % s = m
  intro hd hm
  have hbounds : t ≤ s * q ∧ s * q < t + s := by
    set X := s * q with hX
    omega
  obtain ⟨h1n, h2n⟩ := hbounds
  have hsQ : (0 : ℚ) < (s : ℚ) := by exact_mod_cast hs0
  have h1Q : (t : ℚ) ≤ (s : ℚ) * (q : ℚ) := by exact_mod_cast h1n
  have h2Q : (s : ℚ) * (q : ℚ) < (t : ℚ) + (s : ℚ) := by exact_mod_cast h2n
  symm
  rw [Int.ceil_eq_iff]
  constructor
  · push_cast
    rw [lt_div_iff₀ hsQ]
    nlinarith
  · push_cast
    rw [div_le_iff₀ hsQ]
    nlinarith

/-- C4: the listing returns the slice [(p-1)s, ps) of the
predicate-matching recipes ordered by creation time descending, with
totalPages the ceiling of total/s, hasNext = p < totalPages,
hasPrev = p > 1; a page beyond the last returns an empty list with
hasNext = false and is not an error. -/
theorem paginated_listing (tp : String → Recipe → Bool) (f : QueryFilter)
    (store : List Recipe) (p s : Nat) (hp : 1 ≤ p) (hs : 1 ≤ s) :
    (listRecipes tp f store p s).recipes =
      ((sortByCreatedDesc (store.filter (matchesFilter tp f))).drop
        ((p - 1) * s)).take s ∧
    List.Perm (sortByCreatedDesc (store.filter (matchesFilter tp f)))
      (store.filter (matchesFilter tp f)) ∧
    (sortByCreatedDesc (store.filter (matchesFilter tp f))).Pairwise
      (fun a b => b.createdAt ≤ a.createdAt) ∧
    (∀ i : Nat, i < s →
      ((listRecipes tp f store p s).recipes)[i]? =
        (sortByCreatedDesc (store.filter (matchesFilter tp f)))[(p - 1) * s + i]?) ∧
    (listRecipes tp f store p s).totalRecipes =
      (store.filter (matchesFilter tp f)).length ∧
    (((listRecipes tp f store p s).totalPages : ℕ) : ℤ) =
      ⌈((store.filter (matchesFilter tp f)).length : ℚ) / (s : ℚ)⌉ ∧
    (listRecipes tp f store p s).hasNext =
      decide (p < (listRecipes tp f store p s).totalPages) ∧
    (listRecipes tp f store p s).hasPrev = decide (1 < p) ∧
    ((listRecipes tp f store p s).totalPages < p →
      (listRecipes tp f store p s).recipes = [] ∧
      (listRecipes tp f store p s).hasNext = false) := by
  refine ⟨rfl, sortBy_perm createdDesc (store.filter (matchesFilter tp f)),
    ?_, ?_, rfl, ?_, rfl, rfl, ?_⟩
  · refine (sortBy_pairwise createdDesc_total createdDesc_trans
      (store.filter (matchesFilter tp f))).imp ?_
    intro a b hab
    simpa [createdDesc] using hab
  · intro i hi
    show (((sortByCreatedDesc (store.filter (matchesFilter tp f))).drop
      ((p - 1) * s)).take s)[i]? = _
    rw [List.getElem?_take_of_lt hi, List.getElem?_drop]
  · exact ceilDiv_eq_ceil (store.filter (matchesFilter tp f)).length s hs
  · intro h
    have hlenM : (store.filter (matchesFilter tp f)).length ≤ (p - 1) * s := by
      have hq : ((store.filter (matchesFilter tp f)).length + s - 1) / s < p := h
      have hd := Nat.div_add_mod
        ((store.filter (matchesFilter tp f)).length + s - 1) s
      have hm : ((store.filter (matchesFilter tp f)).length + s - 1) % s < s :=
        Nat.mod_lt _ hs
      revert hq hd hm
      generalize ((store.filter (matchesFilter tp f)).length + s - 1) / s = q
      generalize ((store.filter (matchesFilter tp f)).length + s - 1) % s = m
      generalize (store.filter (matchesFilter tp f)).length = L
      intro hq hd hm
      have hmul : s * q ≤ s * (p - 1) := Nat.mul_le_mul_left s (by omega)
      rw [Nat.mul_comm s (p - 1)] at hmul
      set X := s * q with hX
      set Y := (p - 1) * s with hY
      omega
    have hlenS : (sortByCreatedDesc (store.filter (matchesFilter tp f))).length
        ≤ (p - 1) * s := by
      rw [sortByCreatedDesc,
        (sortBy_perm createdDesc (store.filter (matchesFilter tp f))).length_eq]
      exact hlenM
    constructor
    · show ((sortByCreatedDesc (store.filter (matchesFilter tp f))).drop
        ((p - 1) * s)).take s = []
      rw [List.drop_eq_nil_of_le hlenS]
      simp
    · show decide (p < ((store.filter (matchesFilter tp f)).length + s - 1) / s)
        = false
      have hq : ((store.filter (matchesFilter tp f)).length + s - 1) / s < p := h
      revert hq
      generalize ((store.filter (matchesFilter tp f)).length + s - 1) / s = q
      intro hq
      simp only [decide_eq_false_iff_not]
      omega

/-- Witness for C4: a store of 25 matching recipes with page size 12:
page 1 has 12 items with hasNext and no hasPrev, page 3 has the last
item, page 4 is empty with hasNext false, and totalPages is 3. -/
theorem paginated_listing_witness :
    (listRecipes anyText (buildFilter {}) store25 1 12).recipes.length = 12 ∧
    (listRecipes anyText (buildFilter {}) store25 1 12).hasNext = true ∧
    (listRecipes anyText (buildFilter {}) store25 1 12).hasPrev = false ∧
    (listRecipes anyText (buildFilter {}) store25 1 12).totalPages = 3 ∧
    (listRecipes anyText (buildFilter {}) store25 3 12).recipes.length = 1 ∧
    (listRecipes anyText (buildFilter {}) store25 3 12).hasNext = false ∧
    (listRecipes anyText (buildFilter {}) store25 3 12).hasPrev = true ∧
    (listRecipes anyText (buildFilter {}) store25 4 12).recipes = [] ∧
    (listRecipes anyText (buildFilter {}) store25 4 12).hasNext = false ∧
    (listRecipes anyText (buildFilter {}) store25 4 12).totalRecipes = 25 := by
  have h4 := (paginated_listing anyText (buildFilter ({} : Query)) store25 4 12
    (by decide) (by decide)).2.2.2.2.2.2.2.2
  exact ⟨by decide, by decide, by decide, by decide, by decide, by decide,
    by decide, (h4 (by decide)).1, (h4 (by decide)).2, by decide⟩

theorem popBefore_total : ∀ a b : Recipe, popBefore a b || popBefore b a := by
  intro a b
  simp only [popBefore, Bool.or_eq_true, Bool.and_eq_true, decide_eq_true_eq,
    beq_iff_eq]
  omega

theorem popBefore_trans : ∀ a b c : Recipe,
    popBefore a b → popBefore b c → popBefore a c := by
  intro a b c hab hbc
  simp only [popBefore, Bool.or_eq_true, Bool.and_eq_true, decide_eq_true_eq,
    beq_iff_eq] at *
  omega

/-- C8 counterexample: the popular listing is not ordered by current
averageRating descending with ties by creation time descending: of two
recipes created at the same instant, the one with the lower average
(2.0) but the higher maximum rating (5) comes first. -/
theorem popular_not_by_average :
    popular [recipeMaxHigh, recipeAvgHigh] = [recipeMaxHigh, recipeAvgHigh] ∧
    averageRating recipeMaxHigh < averageRating recipeAvgHigh ∧
    recipeMaxHigh.createdAt = recipeAvgHigh.createdAt := by
  have hA : averageRating recipeMaxHigh = ((20 : ℤ) : ℚ) / 10 := by
    refine averageRating_eval recipeMaxHigh 8 4 2 20 (by decide) (by decide)
      (by decide) ?_ ?_
    · rw [show ((8 : ℕ) : ℚ) / ((4 : ℕ) : ℚ) = 2 from by norm_num]
      exact roundToDouble_two
    · rw [Int.floor_eq_iff]
      constructor <;> norm_num
  have hB : averageRating recipeAvgHigh = ((40 : ℤ) : ℚ) / 10 := by
    refine averageRating_eval recipeAvgHigh 12 3 4 40 (by decide) (by decide)
      (by decide) ?_ ?_
    · rw [show ((12 : ℕ) : ℚ) / ((3 : ℕ) : ℚ) = 4 from by norm_num]
      exact roundToDouble_four
    · rw [Int.floor_eq_iff]
      constructor <;> norm_num
  refine ⟨by decide, ?_, rfl⟩
  rw [hA, hB]
  norm_num

/-- C8 (amended): the popular route returns the top 12 of the catalog
ordered by the maximum value of the `ratings.rating` array (the key a
Mongo descending sort extracts from an array path) descending, ties
broken by creation time descending, recomputed at query time, with no
further pagination. -/
theorem popular_top12_by_max_rating (store : List Recipe) :
    List.Perm (popSort store) store ∧
    (popSort store).Pairwise (fun a b =>
      maxRatingKey b < maxRatingKey a ∨
        (maxRatingKey a = maxRatingKey b ∧ b.createdAt ≤ a.createdAt)) ∧
    popular store = (popSort store).take 12 ∧
    (popular store).length = min 12 store.length ∧
    (popular store).Pairwise (fun a b =>
      maxRatingKey b < maxRatingKey a ∨
        (maxRatingKey a = maxRatingKey b ∧ b.createdAt ≤ a.createdAt)) := by
  have hperm := sortBy_perm popBefore store
  have hpw : (popSort store).Pairwise (fun a b =>
      maxRatingKey b < maxRatingKey a ∨
        (maxRatingKey a = maxRatingKey b ∧ b.createdAt ≤ a.createdAt)) := by
    refine (sortBy_pairwise popBefore_total popBefore_trans store).imp ?_
    intro a b hab
    simpa only [popBefore, Bool.or_eq_true, Bool.and_eq_true,
      decide_eq_true_eq, beq_iff_eq] using hab
  refine ⟨hperm, hpw, rfl, ?_, ?_⟩
  · rw [popular, List.length_take, popSort, hperm.length_eq]
  · exact hpw.sublist (List.take_sublist 12 (popSort store))

/-- Witness for the amended C2: a concrete run — create a recipe with
no seeded ratings, rate it twice by the same user, comment, favorite —
ends in a state where every recipe has at most one rating entry per
user. -/
theorem ratings_unique_invariant_witness :
    RatingsUnique (execOps (initState [fanUser])
      [.create { title := "t", description := "d", cuisine := "c"
                 diet := "Regular", difficulty := "Easy", prepTime := 1
                 cookTime := 1, servings := 1, calories := none
                 ingredients := [⟨"x", "1"⟩], ratings := [], comments := []
                 author := 7, now := 0 },
       .rate 0 7 3 1, .rate 0 7 5 2, .comment 0 7 "hi" 3, .favAdd 7 0]) :=
  ratings_unique_invariant [fanUser] _ (by decide)

/-- Witness for C7: the Italian/maxPrepTime-20 filter excludes the
Italian recipe with prepTime 25 and admits the one with prepTime 10. -/
theorem filter_and_semantics_witness :
    matchesFilter anyText (buildFilter italianQuick) italian25 = false ∧
    matchesFilter anyText (buildFilter italianQuick) italian10 = true :=
  ⟨filter_and_semantics.2.2.1, filter_and_semantics.2.2.2⟩

/-- Witness for C10: supplying cuisine as the empty string on an
otherwise empty query builds the same filter as leaving it out. -/
theorem empty_string_params_no_constraint_witness :
    buildFilter { ({} : Query) with cuisine := some "" } =
      buildFilter { ({} : Query) with cuisine := none } :=
  (empty_string_params_no_constraint {}).1

/-- Witness for the amended C8: on the two-recipe store the popular
listing returns both recipes (min 12 2). -/
theorem popular_top12_by_max_rating_witness :
    (popular [recipeMaxHigh, recipeAvgHigh]).length =
      min 12 ([recipeMaxHigh, recipeAvgHigh] : List Recipe).length :=
  (popular_top12_by_max_rating [recipeMaxHigh, recipeAvgHigh]).2.2.2.1

end RecipeCatalog
